import Mathlib

/-!
Verification development for the Cross-Model Prompt Architect client.

The repository consists of a conversational controller (`App`, in the unnamed
source file: state `messages`, `inputValue`, `targetModel`, `isLoading`,
`copiedId`, and handlers `handleSend`, `handleCopy`, `clearHistory`) and a
prompt-generation client (`generatePrompt` in `services/geminiService.ts`).

This file gives a shallow embedding of both parts:
* a JSON value type and a fueled JSON parser modelling the JavaScript
  `JSON.parse` call used by `generatePrompt`;
* `generatePrompt` as a function from the outcome of the remote
  `ai.models.generateContent` call (a thrown error, or a resolved response
  with an optional `text` payload) to `Except String Json` — the `try` block
  wraps only the parse, so remote errors propagate unchanged, and the parsed
  value is returned without shape validation (the TypeScript
  `data as PromptResult` cast checks nothing at runtime);
* the controller as a state machine: `handleSend` is split at its single
  `await` into `handleSendStart` (the synchronous prefix) and
  `handleSendComplete` (the continuation run when the promise settles);
  executions are event traces over `applyEvent`, with `validFrom` checking
  event-loop validity (nondecreasing times, completions only for an issued
  request, timers firing only once due).
-/

namespace PromptArchitect

/-- JSON values, as produced by the JavaScript `JSON.parse` used in
`generatePrompt`.  Numbers are kept as their source lexeme, since no claim
depends on numeric semantics. -/
inductive Json where
  | null
  | bool (b : Bool)
  | num (lexeme : String)
  | str (s : String)
  | arr (elems : List Json)
  | obj (fields : List (String × Json))

/-- Whitespace characters skipped by the JSON parser. -/
def isWsCharB (c : Char) : Bool :=
  c == ' ' || c == '\t' || c == '\n' || c == '\r'

/-- Drop leading JSON whitespace. -/
def skipWs : List Char → List Char
  | [] => []
  | c :: cs => if isWsCharB c then skipWs cs else c :: cs

/-- Translate a backslash escape character inside a JSON string literal. -/
def escChar (c : Char) : Char :=
  if c = 'n' then '\n' else if c = 't' then '\t' else if c = 'r' then '\r' else c

/-- Parse the body of a JSON string literal (the opening quote already
consumed), returning the decoded characters and the remaining input. -/
def parseStrBody : List Char → Option (List Char × List Char)
  | [] => none
  | '"' :: rest => some ([], rest)
  | '\\' :: c :: rest =>
    match parseStrBody rest with
    | some (s, r) => some (escChar c :: s, r)
    | none => none
  | c :: rest =>
    match parseStrBody rest with
    | some (s, r) => some (c :: s, r)
    | none => none

/-- Take a maximal run of decimal digits. -/
def takeDigits : List Char → List Char × List Char
  | [] => ([], [])
  | c :: cs =>
    if c.isDigit then
      match takeDigits cs with
      | (ds, r) => (c :: ds, r)
    else ([], c :: cs)

/-- Parse a JSON number (sign, integer part, optional fraction and exponent),
keeping the lexeme. -/
def parseNum (cs : List Char) : Option (Json × List Char) :=
  match (match cs with
         | '-' :: r => (['-'], r)
         | _ => (([] : List Char), cs)) with
  | (sign, cs1) =>
    match takeDigits cs1 with
    | ([], _) => none
    | (ds, cs2) =>
      match (match cs2 with
             | '.' :: r =>
               match takeDigits r with
               | ([], _) => none
               | (fs, r2) => some ('.' :: fs, r2)
             | _ => some (([] : List Char), cs2)) with
      | none => none
      | some (fpart, cs3) =>
        match (match cs3 with
               | c :: r =>
                 if c = 'e' ∨ c = 'E' then
                   match (match r with
                          | '+' :: r2 => (['+'], r2)
                          | '-' :: r2 => (['-'], r2)
                          | _ => (([] : List Char), r)) with
                   | (sgn, r1) =>
                     match takeDigits r1 with
                     | ([], _) => none
                     | (es, r2) => some (c :: (sgn ++ es), r2)
                 else some (([] : List Char), c :: r)
               | [] => some (([] : List Char), ([] : List Char))) with
        | none => none
        | some (epart, cs4) =>
          some (Json.num (String.mk (sign ++ ds ++ fpart ++ epart)), cs4)

/-- Parsing mode for `parseF`: a single value, the items of an array after
`[`, or the fields of an object after `\x7b`. -/
inductive PMode where
  | value
  | arrItems
  | objItems

/-- Result of `parseF`, tagged by mode. -/
inductive POut where
  | val (v : Json)
  | items (vs : List Json)
  | fields (fs : List (String × Json))

/-- Fueled recursive-descent JSON parser (model of JavaScript `JSON.parse`).
Structural recursion on the fuel keeps every concrete run kernel-reducible. -/
def parseF : Nat → PMode → List Char → Option (POut × List Char)
  | 0, _, _ => none
  | fuel + 1, PMode.value, cs =>
    match skipWs cs with
    | 'n' :: 'u' :: 'l' :: 'l' :: rest => some (POut.val Json.null, rest)
    | 't' :: 'r' :: 'u' :: 'e' :: rest => some (POut.val (Json.bool true), rest)
    | 'f' :: 'a' :: 'l' :: 's' :: 'e' :: rest => some (POut.val (Json.bool false), rest)
    | '"' :: rest =>
      match parseStrBody rest with
      | some (s, rest2) => some (POut.val (Json.str (String.mk s)), rest2)
      | none => none
    | '[' :: rest =>
      match skipWs rest with
      | ']' :: rest2 => some (POut.val (Json.arr []), rest2)
      | cs2 =>
        match parseF fuel PMode.arrItems cs2 with
        | some (POut.items vs, rest2) => some (POut.val (Json.arr vs), rest2)
        | _ => none
    | '{' :: rest =>
      match skipWs rest with
      | '}' :: rest2 => some (POut.val (Json.obj []), rest2)
      | cs2 =>
        match parseF fuel PMode.objItems cs2 with
        | some (POut.fields fs, rest2) => some (POut.val (Json.obj fs), rest2)
        | _ => none
    | cs2 =>
      match parseNum cs2 with
      | some (v, rest2) => some (POut.val v, rest2)
      | none => none
  | fuel + 1, PMode.arrItems, cs =>
    match parseF fuel PMode.value cs with
    | some (POut.val v, rest) =>
      match skipWs rest with
      | ',' :: rest2 =>
        match parseF fuel PMode.arrItems rest2 with
        | some (POut.items vs, rest3) => some (POut.items (v :: vs), rest3)
        | _ => none
      | ']' :: rest2 => some (POut.items [v], rest2)
      | _ => none
    | _ => none
  | fuel + 1, PMode.objItems, cs =>
    match skipWs cs with
    | '"' :: rest =>
      match parseStrBody rest with
      | some (key, rest1) =>
        match skipWs rest1 with
        | ':' :: rest2 =>
          match parseF fuel PMode.value rest2 with
          | some (POut.val v, rest3) =>
            match skipWs rest3 with
            | ',' :: rest4 =>
              match parseF fuel PMode.objItems rest4 with
              | some (POut.fields fs, rest5) =>
                some (POut.fields ((String.mk key, v) :: fs), rest5)
              | _ => none
            | '}' :: rest4 => some (POut.fields [(String.mk key, v)], rest4)
            | _ => none
          | _ => none
        | _ => none
      | none => none
    | _ => none

/-- `JSON.parse` model: parse a whole string as one JSON value, requiring the
remainder to be whitespace; `none` is a parse failure (a thrown
`SyntaxError`). -/
def jsonParse (s : String) : Option Json :=
  match parseF (2 * s.length + 2) PMode.value s.data with
  | some (POut.val v, rest) =>
    match skipWs rest with
    | [] => some v
    | _ => none
  | _ => none

/-- Outcome of the remote `ai.models.generateContent` call, which the spec
treats as opaque: either the promise rejects with an error, or it resolves
with a response whose `text` field may be absent. -/
inductive RemoteOutcome where
  | err (e : String)
  | ok (text : Option String)

/-- The JavaScript expression `response.text || '\x7b\x7d'`: an absent or empty
(falsy) payload is replaced by the literal text of an empty object. -/
def responseTextOrEmpty : Option String → String
  | none => "\x7b\x7d"
  | some s => if s = "" then "\x7b\x7d" else s

/-- `generatePrompt` from `services/geminiService.ts`, as a function of the
remote call's outcome.  The `await` sits outside the `try`, so a remote error
propagates unchanged; the `try` wraps only `JSON.parse(response.text || '\x7b\x7d')`,
whose failure is replaced by the generic error; the parsed value is returned
verbatim (the `as PromptResult` cast performs no runtime check). -/
def generatePrompt : RemoteOutcome → Except String Json
  | RemoteOutcome.err e => Except.error e
  | RemoteOutcome.ok t =>
    match jsonParse (responseTextOrEmpty t) with
    | some v => Except.ok v
    | none => Except.error "Invalid response from AI"

/-- First binding of a key in a parsed JSON object. -/
def lookupField : List (String × Json) → String → Option Json
  | [], _ => none
  | (k, v) :: fs, key => if k = key then some v else lookupField fs key

/-- Whether a JSON value is a string. -/
def isStringJson : Json → Bool
  | Json.str _ => true
  | _ => false

/-- Whether a JSON value is a boolean. -/
def isBoolJson : Json → Bool
  | Json.bool _ => true
  | _ => false

/-- Whether a JSON value is an array of strings. -/
def isStringListJson : Json → Bool
  | Json.arr vs => vs.all isStringJson
  | _ => false

/-- Whether a JSON value matches the `PromptResult` interface of
`src/types.ts`: required `isClarificationNeeded : boolean`,
`optimizedPrompt : string`, `logic : string`, `modelTip : string`, and an
optional `clarifyingQuestions : string[]`.  This is the structured shape the
spec says `generatePrompt` validates; it is compared against what the code
actually does. -/
def isPromptResultShape (v : Json) : Bool :=
  match v with
  | Json.obj fields =>
    (match lookupField fields "isClarificationNeeded" with
     | some w => isBoolJson w
     | none => false) &&
    (match lookupField fields "optimizedPrompt" with
     | some w => isStringJson w
     | none => false) &&
    (match lookupField fields "logic" with
     | some w => isStringJson w
     | none => false) &&
    (match lookupField fields "modelTip" with
     | some w => isStringJson w
     | none => false) &&
    (match lookupField fields "clarifyingQuestions" with
     | some w => isStringListJson w
     | none => true)
  | _ => false

/-- Whether a resolved payload parses as the `PromptResult` shape (the
spec-side reading of the `generatePrompt` contract). -/
def payloadParsesAsPromptResult (t : Option String) : Bool :=
  match jsonParse (responseTextOrEmpty t) with
  | some v => isPromptResultShape v
  | none => false

/-- The decimal digit character for `d`, as JavaScript prints it
(`'0'` has code 48). -/
def digitChar10 (d : Nat) : Char := Char.ofNat (48 + d)

/-- Numeric value of a decimal digit character. -/
def charVal (c : Char) : Nat := c.toNat - 48

/-- Little-endian decimal digits of `n`, fueled so that concrete runs are
kernel-reducible; any fuel above `n` is sufficient. -/
def natDigitsRevF : Nat → Nat → List Char
  | 0, _ => []
  | fuel + 1, n =>
    if n < 10 then [digitChar10 n]
    else digitChar10 (n % 10) :: natDigitsRevF fuel (n / 10)

/-- Model of the JavaScript `Number.prototype.toString` conversion applied to
the integer clock values `Date.now()` used for message ids. -/
def natToString (n : Nat) : String := String.mk (natDigitsRevF (n + 1) n).reverse

/-- Decode a little-endian decimal digit list back to a number. -/
def decodeDigitsRev : List Char → Nat
  | [] => 0
  | c :: cs => charVal c + 10 * decodeDigitsRev cs

lemma charVal_digitChar10 : ∀ d, d < 10 → charVal (digitChar10 d) = d := by decide

lemma decode_natDigitsRevF : ∀ (fuel n : Nat), n < fuel →
    decodeDigitsRev (natDigitsRevF fuel n) = n := by
  intro fuel
  induction fuel with
  | zero => intro n h; omega
  | succ f ih =>
    intro n h
    by_cases h10 : n < 10
    · simp [natDigitsRevF, h10, decodeDigitsRev, charVal_digitChar10 n h10]
    · have hpos : 0 < n := by omega
      have hdivlt : n / 10 < n := Nat.div_lt_self hpos (by omega)
      have hdiv : n / 10 < f := by omega
      have hmod : n % 10 < 10 := Nat.mod_lt _ (by omega)
      simp [natDigitsRevF, h10, decodeDigitsRev, ih (n / 10) hdiv,
        charVal_digitChar10 (n % 10) hmod]
      omega

lemma natToString_inj {a b : Nat} (h : natToString a = natToString b) : a = b := by
  have h1 : (natDigitsRevF (a + 1) a).reverse = (natDigitsRevF (b + 1) b).reverse :=
    congrArg String.data h
  have h2 : natDigitsRevF (a + 1) a = natDigitsRevF (b + 1) b :=
    List.reverse_injective h1
  have h3 := congrArg decodeDigitsRev h2
  rwa [decode_natDigitsRevF (a + 1) a (Nat.lt_succ_self a),
    decode_natDigitsRevF (b + 1) b (Nat.lt_succ_self b)] at h3

/-- Model of the JavaScript `String.prototype.trim` applied to the input
buffer in the `handleSend` guard. -/
def jsTrim (s : String) : String :=
  String.mk (((s.data.dropWhile isWsCharB).reverse.dropWhile isWsCharB).reverse)

/-- Message roles, from the `Message` interface in `src/types.ts`. -/
inductive Role where
  | user
  | assistant
deriving DecidableEq

/-- The `PromptResult` interface of `src/types.ts` (the type the controller
receives from a successful generation call). -/
structure PromptResult where
  optimizedPrompt : String
  logic : String
  modelTip : String
  clarifyingQuestions : Option (List String)
  isClarificationNeeded : Bool
deriving DecidableEq

/-- The `Message` interface of `src/types.ts`. -/
structure Message where
  id : String
  role : Role
  content : String
  result : Option PromptResult
  timestamp : Nat
deriving DecidableEq

/-- The `ModelTarget` enum of `src/types.ts`. -/
inductive ModelTarget where
  | GEMINI
  | GPT4
  | CLAUDE
  | GENERAL
deriving DecidableEq

/-- The string value of each `ModelTarget` enum member. -/
def targetLabel : ModelTarget → String
  | ModelTarget.GEMINI => "GEMINI"
  | ModelTarget.GPT4 => "GPT4"
  | ModelTarget.CLAUDE => "CLAUDE"
  | ModelTarget.GENERAL => "GENERAL"

/-- Role tags of the outbound API history (`'user' | 'model'`). -/
inductive ApiRole where
  | user
  | model
deriving DecidableEq

/-- One entry of the history passed to `generatePrompt`:
`\x7b role, parts: [\x7b text \x7d] \x7d`. -/
structure ApiTurn where
  role : ApiRole
  parts : List String
deriving DecidableEq

/-- The `historyForApi` projection computed in `handleSend`: each message
becomes a `\x7b role, parts: [\x7b text: content \x7d] \x7d` pair. -/
def historyForApi (msgs : List Message) : List ApiTurn :=
  msgs.map (fun m =>
    { role := match m.role with
        | Role.user => ApiRole.user
        | Role.assistant => ApiRole.model,
      parts := [m.content] })

/-- The new turn `generatePrompt` appends after the history: the target label
and the user text encoded together in one user-role part. -/
def currentTurn (tm : ModelTarget) (userInput : String) : ApiTurn :=
  { role := ApiRole.user,
    parts := ["Target Model: " ++ targetLabel tm ++ "\nUser Request: " ++ userInput] }

/-- The `contents` array sent by `generatePrompt`: prior history followed by
the single new turn. -/
def contentsFor (history : List ApiTurn) (tm : ModelTarget) (userInput : String) :
    List ApiTurn :=
  history ++ [currentTurn tm userInput]

/-- The user message `handleSend` appends: id and timestamp from the current
clock value, content the (untrimmed) input buffer, no result. -/
def userMsg (content : String) (now : Nat) : Message :=
  { id := natToString now, role := Role.user, content := content,
    result := none, timestamp := now }

/-- The assistant message `handleSend` appends when the generation call
succeeds: id from clock + 1, acknowledgment text chosen by
`result.isClarificationNeeded`, the result attached. -/
def assistantSuccessMsg (r : PromptResult) (now : Nat) : Message :=
  { id := natToString (now + 1), role := Role.assistant,
    content :=
      if r.isClarificationNeeded then
        "I need a bit more information to build the perfect prompt for you:"
      else
        "I\x27ve architected a world-class prompt based on your requirements.",
    result := some r, timestamp := now }

/-- The assistant message `handleSend` appends when the generation call
throws: fixed error text, no result. -/
def assistantErrorMsg (now : Nat) : Message :=
  { id := natToString (now + 1), role := Role.assistant,
    content := "I encountered an error while constructing your prompt. Please check your API configuration or try again.",
    result := none, timestamp := now }

/-- Arguments of an in-flight `generatePrompt` call. -/
structure PendingReq where
  userInput : String
  targetModel : ModelTarget
  history : List ApiTurn
deriving DecidableEq

/-- The controller state of `App`: the `useState` cells `messages`,
`inputValue`, `targetModel`, `isLoading`, `copiedId`, plus two event-loop
artifacts of the shallow embedding: the arguments of the outstanding
`generatePrompt` call (`pending`) and the expiry instants of outstanding
`setTimeout` callbacks scheduled by `handleCopy` (`timers`). -/
structure AppState where
  messages : List Message
  inputValue : String
  targetModel : ModelTarget
  isLoading : Bool
  copiedId : Option String
  pending : Option PendingReq
  timers : List Nat
deriving DecidableEq

/-- The initial `App` state. -/
def initState : AppState :=
  { messages := [], inputValue := "", targetModel := ModelTarget.GENERAL,
    isLoading := false, copiedId := none, pending := none, timers := [] }

/-- The synchronous prefix of `handleSend`, up to its `await`: guard on blank
input or an in-flight request; otherwise append the user message, clear the
input, set loading, and issue the generation call with the input text, the
current target model, and the history projected from the pre-append message
list (the render snapshot). -/
def handleSendStart (s : AppState) (now : Nat) : AppState :=
  if jsTrim s.inputValue = "" ∨ s.isLoading = true then s
  else
    { s with
      messages := s.messages ++ [userMsg s.inputValue now],
      inputValue := "",
      isLoading := true,
      pending := some { userInput := s.inputValue, targetModel := s.targetModel,
                        history := historyForApi s.messages } }

/-- The continuation of `handleSend` after its `await` settles: append one
assistant message chosen by the outcome, and (from the `finally` block)
reset loading; the pending call is finished. -/
def handleSendComplete (s : AppState) (outcome : Except String PromptResult)
    (now : Nat) : AppState :=
  { s with
    messages := s.messages ++
      [match outcome with
       | Except.ok r => assistantSuccessMsg r now
       | Except.error _ => assistantErrorMsg now],
    isLoading := false,
    pending := none }

/-- `handleCopy`: record the copied message id and schedule a reset callback
2000 ms later (the clipboard write itself is outside the model). -/
def handleCopy (s : AppState) (msgId : String) (now : Nat) : AppState :=
  { s with copiedId := some msgId, timers := s.timers ++ [now + 2000] }

/-- `clearHistory`: empty the message list only if the user confirms. -/
def clearHistory (s : AppState) (confirmed : Bool) : AppState :=
  if confirmed then { s with messages := [] } else s

/-- User and event-loop events of one session. -/
inductive Event where
  | setInput (v : String)
  | selectTarget (m : ModelTarget)
  | sendStart
  | sendComplete (outcome : Except String PromptResult)
  | copy (msgId : String)
  | fireTimer (expiry : Nat)
  | clear (confirmed : Bool)

/-- Effect of one event on the state, at clock value `now`.  The `fireTimer`
case is the body of the `setTimeout` callback in `handleCopy`: it sets
`copiedId` to `null` unconditionally. -/
def applyEvent (s : AppState) (ev : Event) (now : Nat) : AppState :=
  match ev with
  | Event.setInput v => { s with inputValue := v }
  | Event.selectTarget m => { s with targetModel := m }
  | Event.sendStart => handleSendStart s now
  | Event.sendComplete o => handleSendComplete s o now
  | Event.copy msgId => handleCopy s msgId now
  | Event.fireTimer e => { s with copiedId := none, timers := s.timers.erase e }
  | Event.clear c => clearHistory s c

/-- Event-loop validity of an event at clock `now`: a completion needs an
issued request, and a timer callback fires only once its delay elapsed. -/
def eventOkB (s : AppState) (ev : Event) (now : Nat) : Bool :=
  match ev with
  | Event.sendComplete _ => s.pending.isSome
  | Event.fireTimer e => s.timers.contains e && decide (e ≤ now)
  | _ => true

/-- Run a timed event trace. -/
def runTrace (s : AppState) : List (Event × Nat) → AppState
  | [] => s
  | (ev, t) :: rest => runTrace (applyEvent s ev t) rest

/-- Validity of a timed trace starting no earlier than `t0`: times are
nondecreasing and every event is valid in the state it fires in. -/
def validFrom (t0 : Nat) (s : AppState) : List (Event × Nat) → Bool
  | [] => true
  | (ev, t) :: rest =>
    decide (t0 ≤ t) && eventOkB s ev t && validFrom t (applyEvent s ev t) rest

/-- Clock values of the message-creating events (send starts and
completions) of a trace, in order. -/
def sendTimes : List (Event × Nat) → List Nat
  | [] => []
  | (ev, t) :: rest =>
    match ev with
    | Event.sendStart => t :: sendTimes rest
    | Event.sendComplete _ => t :: sendTimes rest
    | _ => sendTimes rest

/-- C1 (counterexample): the claim says `generatePrompt` fails with the
generic invalid-response error exactly when the payload cannot be parsed as
the `PromptResult` shape.  The remote payload `"[1]"` is JSON-parseable but
is not the `PromptResult` shape, yet the call succeeds and returns the array
— the shape is never validated. -/
theorem generatePrompt_shape_counterexample :
    payloadParsesAsPromptResult (some "[1]") = false ∧
    generatePrompt (RemoteOutcome.ok (some "[1]")) =
      Except.ok (Json.arr [Json.num "1"]) :=
  ⟨rfl, rfl⟩

/-- C1 (amended): `generatePrompt` fails with the generic
"Invalid response from AI" error exactly when the payload text (with an
absent or empty payload replaced by the empty-object literal) is not
parseable as JSON at all, and any error raised by the remote call itself is
propagated to the caller unchanged. -/
theorem generatePrompt_error_iff_parse_fails :
    ∀ (t : Option String) (e : String),
      ((generatePrompt (RemoteOutcome.ok t) = Except.error "Invalid response from AI") ↔
        jsonParse (responseTextOrEmpty t) = none) ∧
      generatePrompt (RemoteOutcome.err e) = Except.error e := by
  intro t e
  refine ⟨⟨fun h => ?_, fun h => by simp [generatePrompt, h]⟩, rfl⟩
  cases hj : jsonParse (responseTextOrEmpty t) with
  | none => rfl
  | some v => simp [generatePrompt, hj] at h

/-- C10: a resolved remote call never makes `generatePrompt` fail for lack of
a payload: absent or empty text is replaced by the empty-object literal and
parses to the empty object (no fields present); and any JSON-parseable
payload of any shape is returned verbatim, without validation against the
`PromptResult` shape. -/
theorem generatePrompt_returns_parsed_json_verbatim :
    generatePrompt (RemoteOutcome.ok none) = Except.ok (Json.obj []) ∧
    generatePrompt (RemoteOutcome.ok (some "")) = Except.ok (Json.obj []) ∧
    ∀ (s : String) (v : Json), s ≠ "" → jsonParse s = some v →
      generatePrompt (RemoteOutcome.ok (some s)) = Except.ok v := by
  refine ⟨rfl, rfl, fun s v hne hp => ?_⟩
  simp [generatePrompt, responseTextOrEmpty, hne, hp]

/-- Witness for C10 at the payload `"true"`, a JSON value that is not even an
object. -/
theorem generatePrompt_returns_parsed_json_verbatim_witness :
    (("true" : String) ≠ "" ∧ jsonParse "true" = some (Json.bool true)) ∧
    generatePrompt (RemoteOutcome.ok (some "true")) = Except.ok (Json.bool true) :=
  ⟨⟨by decide, rfl⟩,
    generatePrompt_returns_parsed_json_verbatim.2.2 "true" (Json.bool true)
      (by decide) rfl⟩

/-- C4: a submit with blank (whitespace-only after trimming) input, or one
attempted while a request is in flight, is a complete no-op: the state is
unchanged, so no message is appended and no generation call is issued. -/
theorem handleSend_noop_on_blank_or_loading :
    ∀ (s : AppState) (now : Nat),
      jsTrim s.inputValue = "" ∨ s.isLoading = true →
      handleSendStart s now = s := by
  intro s now h
  unfold handleSendStart
  rw [if_pos h]

/-- Witness for C4 at the initial state, whose input buffer is empty. -/
theorem handleSend_noop_on_blank_or_loading_witness :
    (jsTrim initState.inputValue = "" ∨ initState.isLoading = true) ∧
    handleSendStart initState 0 = initState :=
  ⟨Or.inl (by decide),
    handleSend_noop_on_blank_or_loading initState 0 (Or.inl (by decide))⟩

/-- C2: a submit whose generation call succeeds with `r` appends exactly one
assistant message, after the user message; it carries `r` as its attached
result, and its content is chosen solely by `r.isClarificationNeeded`:
the clarification acknowledgment when true, the architected-prompt
acknowledgment when false. -/
theorem handleSend_success_appends_assistant :
    ∀ (s : AppState) (r : PromptResult) (t0 t1 : Nat),
      jsTrim s.inputValue ≠ "" → s.isLoading = false →
      (handleSendComplete (handleSendStart s t0) (Except.ok r) t1).messages
        = s.messages ++ [userMsg s.inputValue t0, assistantSuccessMsg r t1] ∧
      (assistantSuccessMsg r t1).result = some r ∧
      (assistantSuccessMsg r t1).role = Role.assistant ∧
      (assistantSuccessMsg r t1).content =
        (if r.isClarificationNeeded then
          "I need a bit more information to build the perfect prompt for you:"
         else
          "I\x27ve architected a world-class prompt based on your requirements.") := by
  intro s r t0 t1 h1 h2
  have hguard : ¬ (jsTrim s.inputValue = "" ∨ s.isLoading = true) := by
    simp [h1, h2]
  refine ⟨?_, rfl, rfl, rfl⟩
  unfold handleSendStart handleSendComplete
  rw [if_neg hguard]
  simp

/-- Witness for C2: a submit of "hi" from the initial state, succeeding with
a concrete non-clarification result. -/
theorem handleSend_success_appends_assistant_witness :
    (jsTrim ({ initState with inputValue := "hi" } : AppState).inputValue ≠ "" ∧
     ({ initState with inputValue := "hi" } : AppState).isLoading = false) ∧
    (handleSendComplete (handleSendStart { initState with inputValue := "hi" } 5)
        (Except.ok ⟨"p", "l", "t", none, false⟩) 7).messages
      = ({ initState with inputValue := "hi" } : AppState).messages ++
        [userMsg "hi" 5, assistantSuccessMsg ⟨"p", "l", "t", none, false⟩ 7] :=
  ⟨⟨by decide, rfl⟩,
    (handleSend_success_appends_assistant { initState with inputValue := "hi" }
      ⟨"p", "l", "t", none, false⟩ 5 7 (by decide) rfl).1⟩

/-- C3: a submit whose generation call fails appends exactly one assistant
message with the fixed error text and no attached result, and the loading
flag is false after the submit completes — for every outcome, success or
failure. -/
theorem handleSend_failure_appends_error_message :
    ∀ (s : AppState) (e : String) (t0 t1 : Nat),
      jsTrim s.inputValue ≠ "" → s.isLoading = false →
      (handleSendComplete (handleSendStart s t0) (Except.error e) t1).messages
        = s.messages ++ [userMsg s.inputValue t0, assistantErrorMsg t1] ∧
      (assistantErrorMsg t1).result = none ∧
      (assistantErrorMsg t1).content =
        "I encountered an error while constructing your prompt. Please check your API configuration or try again." ∧
      (∀ outcome : Except String PromptResult,
        (handleSendComplete (handleSendStart s t0) outcome t1).isLoading = false) := by
  intro s e t0 t1 h1 h2
  have hguard : ¬ (jsTrim s.inputValue = "" ∨ s.isLoading = true) := by
    simp [h1, h2]
  refine ⟨?_, rfl, rfl, fun _ => rfl⟩
  unfold handleSendStart handleSendComplete
  rw [if_neg hguard]
  simp

/-- Witness for C3: a submit of "hi" from the initial state whose generation
call rejects. -/
theorem handleSend_failure_appends_error_message_witness :
    (jsTrim ({ initState with inputValue := "hi" } : AppState).inputValue ≠ "" ∧
     ({ initState with inputValue := "hi" } : AppState).isLoading = false) ∧
    (handleSendComplete (handleSendStart { initState with inputValue := "hi" } 5)
        (Except.error "boom") 7).messages
      = ({ initState with inputValue := "hi" } : AppState).messages ++
        [userMsg "hi" 5, assistantErrorMsg 7] :=
  ⟨⟨by decide, rfl⟩,
    (handleSend_failure_appends_error_message { initState with inputValue := "hi" }
      "boom" 5 7 (by decide) rfl).1⟩

/-- C5: for a non-blank submit, the generation call is issued with the
history projected from exactly the pre-submit message list (same length as
the pre-submit list, so the new user message is not in it), while the new
user message is appended to the authoritative list; the request the client
sends is that history followed by one current turn encoding the target label
and the user text together. -/
theorem handleSend_history_snapshot :
    ∀ (s : AppState) (t0 : Nat),
      jsTrim s.inputValue ≠ "" → s.isLoading = false →
      (handleSendStart s t0).pending
        = some { userInput := s.inputValue, targetModel := s.targetModel,
                 history := historyForApi s.messages } ∧
      (handleSendStart s t0).messages = s.messages ++ [userMsg s.inputValue t0] ∧
      (historyForApi s.messages).length = s.messages.length ∧
      contentsFor (historyForApi s.messages) s.targetModel s.inputValue
        = historyForApi s.messages ++
          [{ role := ApiRole.user,
             parts := ["Target Model: " ++ targetLabel s.targetModel ++
                       "\nUser Request: " ++ s.inputValue] }] := by
  intro s t0 h1 h2
  have hguard : ¬ (jsTrim s.inputValue = "" ∨ s.isLoading = true) := by
    simp [h1, h2]
  refine ⟨?_, ?_, by simp [historyForApi], rfl⟩
  · unfold handleSendStart
    rw [if_neg hguard]
  · unfold handleSendStart
    rw [if_neg hguard]

/-- Witness for C5: a submit of "hi" from a state with one prior message. -/
theorem handleSend_history_snapshot_witness :
    (jsTrim ({ initState with
               inputValue := "hi",
               messages := [userMsg "earlier" 1] } : AppState).inputValue ≠ "" ∧
     ({ initState with
        inputValue := "hi",
        messages := [userMsg "earlier" 1] } : AppState).isLoading = false) ∧
    (handleSendStart { initState with
                       inputValue := "hi",
                       messages := [userMsg "earlier" 1] } 5).pending
      = some { userInput := "hi", targetModel := ModelTarget.GENERAL,
               history := historyForApi [userMsg "earlier" 1] } :=
  ⟨⟨by decide, rfl⟩,
    (handleSend_history_snapshot
      { initState with inputValue := "hi", messages := [userMsg "earlier" 1] } 5
      (by decide) rfl).1⟩

/-- C7 (counterexample): the claim says a superseded copy does not clear the
newer indicator.  Copy "X" at 0 ms, copy "Y" at 1500 ms; the timer scheduled
by the first copy fires at 2000 ms — a valid moment, before the 3500 ms
expiry of the second copy's window — and clears the indicator to none even
though "Y" was set more recently: the callback is never cancelled and resets
unconditionally. -/
theorem copied_indicator_race_counterexample :
    validFrom 0 initState
      [(Event.copy "X", 0), (Event.copy "Y", 1500), (Event.fireTimer 2000, 2000)]
      = true ∧
    (runTrace initState [(Event.copy "X", 0), (Event.copy "Y", 1500)]).copiedId
      = some "Y" ∧
    (runTrace initState
      [(Event.copy "X", 0), (Event.copy "Y", 1500), (Event.fireTimer 2000, 2000)]).copiedId
      = none := by
  refine ⟨by decide, rfl, rfl⟩

/-- C7 (amended): invoking copy with message id `X` sets the indicator to `X`
immediately and schedules a reset 2000 ms later; when any outstanding copy
timer fires (at or after its expiry), it clears the indicator to none
unconditionally — including a superseded copy's timer, which therefore does
clear a newer indicator. -/
theorem copy_sets_indicator_and_timer_clears :
    ∀ (s : AppState) (msgId : String) (t e t' : Nat),
      (applyEvent s (Event.copy msgId) t).copiedId = some msgId ∧
      (applyEvent s (Event.copy msgId) t).timers = s.timers ++ [t + 2000] ∧
      (eventOkB s (Event.fireTimer e) t' = true →
        (applyEvent s (Event.fireTimer e) t').copiedId = none) := by
  intro s msgId t e t'
  exact ⟨rfl, rfl, fun _ => rfl⟩

/-- Witness for C7 (amended): a single copy whose timer fires at 2500 ms. -/
theorem copy_sets_indicator_and_timer_clears_witness :
    eventOkB (handleCopy initState "X" 0) (Event.fireTimer 2000) 2500 = true ∧
    (applyEvent (handleCopy initState "X" 0) (Event.fireTimer 2000) 2500).copiedId
      = none :=
  ⟨by decide,
    (copy_sets_indicator_and_timer_clears (handleCopy initState "X" 0) "X" 0 2000
      2500).2.2 (by decide)⟩

/-- C8: `clearHistory` without user confirmation leaves the whole state (in
particular the message list) unchanged; with confirmation it empties the
message list unconditionally, whatever it contained. -/
theorem clearHistory_confirmation :
    ∀ s : AppState, clearHistory s false = s ∧ (clearHistory s true).messages = [] :=
  fun _ => ⟨rfl, rfl⟩

/-- C6 (counterexample): the claim says message ids are pairwise distinct in
every reachable state.  Ids are clock-derived (`Date.now().toString()` for
the user message, `(Date.now() + 1).toString()` for the assistant message),
so a valid trace — submit at 1 ms, completion at 2 ms (assistant id "3"),
second submit at 3 ms (user id "3") — reaches a state with a duplicated
id. -/
theorem message_ids_can_collide :
    validFrom 0 initState
      [(Event.setInput "hi", 0), (Event.sendStart, 1),
       (Event.sendComplete (Except.error "boom"), 2),
       (Event.setInput "yo", 3), (Event.sendStart, 3)] = true ∧
    ¬ ((runTrace initState
      [(Event.setInput "hi", 0), (Event.sendStart, 1),
       (Event.sendComplete (Except.error "boom"), 2),
       (Event.setInput "yo", 3), (Event.sendStart, 3)]).messages.map Message.id).Nodup := by
  exact ⟨by decide, by decide⟩

lemma chain_sep_le : ∀ (L : List Nat) (t : Nat),
    List.Chain' (fun a b => a + 2 ≤ b) (t :: L) → ∀ u ∈ L, t + 2 ≤ u := by
  intro L
  induction L with
  | nil =>
    intro t _ u hu
    cases hu
  | cons v L ih =>
    intro t h u hu
    rw [List.chain'_cons] at h
    rcases List.mem_cons.mp hu with rfl | hu'
    · exact h.1
    · have := ih v h.2 u hu'
      omega

lemma run_ids_nodup : ∀ (tr : List (Event × Nat)) (s : AppState),
    List.Chain' (fun a b => a + 2 ≤ b) (sendTimes tr) →
    (s.messages.map Message.id).Nodup →
    (∀ m ∈ s.messages, ∃ k, m.id = natToString k ∧ ∀ u ∈ sendTimes tr, k < u) →
    ((runTrace s tr).messages.map Message.id).Nodup := by
  intro tr
  induction tr with
  | nil =>
    intro s _ h2 _
    exact h2
  | cons p rest ih =>
    obtain ⟨ev, t⟩ := p
    intro s h1 h2 h3
    show ((runTrace (applyEvent s ev t) rest).messages.map Message.id).Nodup
    cases ev with
    | setInput v => exact ih _ h1 h2 h3
    | selectTarget m => exact ih _ h1 h2 h3
    | copy msgId => exact ih _ h1 h2 h3
    | fireTimer e => exact ih _ h1 h2 h3
    | clear c =>
      cases c with
      | false => exact ih _ h1 h2 h3
      | true =>
        apply ih _ h1
        · simp [applyEvent, clearHistory]
        · simp [applyEvent, clearHistory]
    | sendStart =>
      have h1' : List.Chain' (fun a b => a + 2 ≤ b) (sendTimes rest) := h1.tail
      have hsep : ∀ u ∈ sendTimes rest, t + 2 ≤ u := chain_sep_le _ t h1
      by_cases hg : jsTrim s.inputValue = "" ∨ s.isLoading = true
      · have hA : applyEvent s Event.sendStart t = s := by
          show handleSendStart s t = s
          unfold handleSendStart
          rw [if_pos hg]
        rw [hA]
        refine ih s h1' h2 (fun m hm => ?_)
        obtain ⟨k, hk1, hk2⟩ := h3 m hm
        exact ⟨k, hk1, fun u hu => hk2 u (List.mem_cons_of_mem _ hu)⟩
      · have hA : (applyEvent s Event.sendStart t).messages
            = s.messages ++ [userMsg s.inputValue t] := by
          show (handleSendStart s t).messages = _
          unfold handleSendStart
          rw [if_neg hg]
        apply ih _ h1'
        · rw [hA, List.map_append]
          refine h2.append (by simp) ?_
          intro a ha hb
          simp [userMsg] at hb
          subst hb
          obtain ⟨m, hm, hid⟩ := List.mem_map.mp ha
          obtain ⟨k, hk1, hk2⟩ := h3 m hm
          have hkt : k < t := hk2 t (List.mem_cons_self _ _)
          have : k = t := natToString_inj (hk1 ▸ hid)
          omega
        · rw [hA]
          intro m hm
          rcases List.mem_append.mp hm with hm' | hm'
          · obtain ⟨k, hk1, hk2⟩ := h3 m hm'
            exact ⟨k, hk1, fun u hu => hk2 u (List.mem_cons_of_mem _ hu)⟩
          · simp at hm'
            subst hm'
            refine ⟨t, rfl, fun u hu => ?_⟩
            have := hsep u hu
            omega
    | sendComplete o =>
      have h1' : List.Chain' (fun a b => a + 2 ≤ b) (sendTimes rest) := h1.tail
      have hsep : ∀ u ∈ sendTimes rest, t + 2 ≤ u := chain_sep_le _ t h1
      have hA : ∃ newMsg : Message, newMsg.id = natToString (t + 1) ∧
          (applyEvent s (Event.sendComplete o) t).messages
            = s.messages ++ [newMsg] := by
        cases o with
        | ok r => exact ⟨assistantSuccessMsg r t, rfl, rfl⟩
        | error e => exact ⟨assistantErrorMsg t, rfl, rfl⟩
      obtain ⟨newMsg, hid, hA⟩ := hA
      apply ih _ h1'
      · rw [hA, List.map_append]
        refine h2.append (by simp) ?_
        intro a ha hb
        simp [hid] at hb
        subst hb
        obtain ⟨m, hm, hmid⟩ := List.mem_map.mp ha
        obtain ⟨k, hk1, hk2⟩ := h3 m hm
        have hkt : k < t := hk2 t (List.mem_cons_self _ _)
        have : k = t + 1 := natToString_inj (hk1 ▸ hmid)
        omega
      · rw [hA]
        intro m hm
        rcases List.mem_append.mp hm with hm' | hm'
        · obtain ⟨k, hk1, hk2⟩ := h3 m hm'
          exact ⟨k, hk1, fun u hu => hk2 u (List.mem_cons_of_mem _ hu)⟩
        · simp at hm'
          subst hm'
          refine ⟨t + 1, hid, fun u hu => ?_⟩
          have := hsep u hu
          omega

/-- C6 (amended): message ids are derived from the clock — `natToString now`
for a user message, `natToString (now + 1)` for an assistant message — so
they are not unconditionally fresh; but in every execution whose
message-creating events (send starts and completions) are separated by at
least 2 clock units, the ids in the reached state are pairwise distinct. -/
theorem message_ids_nodup_of_separated :
    ∀ tr : List (Event × Nat),
      validFrom 0 initState tr = true →
      List.Chain' (fun a b => a + 2 ≤ b) (sendTimes tr) →
      ((runTrace initState tr).messages.map Message.id).Nodup := by
  intro tr _ hchain
  refine run_ids_nodup tr initState hchain (by simp [initState]) ?_
  intro m hm
  simp [initState] at hm

/-- Witness for C6 (amended): two well-separated submits produce four
pairwise distinct ids. -/
theorem message_ids_nodup_of_separated_witness :
    (validFrom 0 initState
      [(Event.setInput "hi", 0), (Event.sendStart, 2),
       (Event.sendComplete (Except.error "boom"), 4),
       (Event.setInput "yo", 5), (Event.sendStart, 6)] = true ∧
     List.Chain' (fun a b => a + 2 ≤ b)
       (sendTimes
         [(Event.setInput "hi", 0), (Event.sendStart, 2),
          (Event.sendComplete (Except.error "boom"), 4),
          (Event.setInput "yo", 5), (Event.sendStart, 6)])) ∧
    ((runTrace initState
      [(Event.setInput "hi", 0), (Event.sendStart, 2),
       (Event.sendComplete (Except.error "boom"), 4),
       (Event.setInput "yo", 5), (Event.sendStart, 6)]).messages.map Message.id).Nodup :=
  ⟨⟨by decide, by simp [sendTimes, List.chain'_cons]⟩,
    message_ids_nodup_of_separated _ (by decide)
      (by simp [sendTimes, List.chain'_cons])⟩

lemma run_result_iff : ∀ (tr : List (Event × Nat)) (s : AppState),
    (∀ m ∈ s.messages, m.result.isSome = true ↔
      (m.role = Role.assistant ∧ ∃ r t, m = assistantSuccessMsg r t)) →
    ∀ m ∈ (runTrace s tr).messages, m.result.isSome = true ↔
      (m.role = Role.assistant ∧ ∃ r t, m = assistantSuccessMsg r t) := by
  intro tr
  induction tr with
  | nil =>
    intro s h
    exact h
  | cons p rest ih =>
    obtain ⟨ev, t⟩ := p
    intro s h
    apply ih
    cases ev with
    | setInput v => exact h
    | selectTarget m => exact h
    | copy msgId => exact h
    | fireTimer e => exact h
    | clear c =>
      cases c with
      | false => exact h
      | true =>
        intro m hm
        simp [applyEvent, clearHistory] at hm
    | sendStart =>
      by_cases hg : jsTrim s.inputValue = "" ∨ s.isLoading = true
      · have hA : applyEvent s Event.sendStart t = s := by
          show handleSendStart s t = s
          unfold handleSendStart
          rw [if_pos hg]
        rw [hA]
        exact h
      · have hA : (applyEvent s Event.sendStart t).messages
            = s.messages ++ [userMsg s.inputValue t] := by
          show (handleSendStart s t).messages = _
          unfold handleSendStart
          rw [if_neg hg]
        intro m hm
        rw [hA] at hm
        rcases List.mem_append.mp hm with hm' | hm'
        · exact h m hm'
        · simp at hm'
          subst hm'
          constructor
          · intro hsome
            exact absurd hsome (by simp [userMsg])
          · rintro ⟨hrole, -⟩
            exact absurd hrole (by simp [userMsg])
    | sendComplete o =>
      intro m hm
      cases o with
      | ok r =>
        have hA : (applyEvent s (Event.sendComplete (Except.ok r)) t).messages
            = s.messages ++ [assistantSuccessMsg r t] := rfl
        rw [hA] at hm
        rcases List.mem_append.mp hm with hm' | hm'
        · exact h m hm'
        · simp at hm'
          subst hm'
          exact ⟨fun _ => ⟨rfl, r, t, rfl⟩, fun _ => rfl⟩
      | error e =>
        have hA : (applyEvent s (Event.sendComplete (Except.error e)) t).messages
            = s.messages ++ [assistantErrorMsg t] := rfl
        rw [hA] at hm
        rcases List.mem_append.mp hm with hm' | hm'
        · exact h m hm'
        · simp at hm'
          subst hm'
          constructor
          · intro hsome
            exact absurd hsome (by simp [assistantErrorMsg])
          · rintro ⟨-, r', t', heq⟩
            have := congrArg Message.result heq
            simp [assistantErrorMsg, assistantSuccessMsg] at this

/-- C9: in every reachable state, a message carries an attached result
exactly when it is an assistant message produced by a successful generation
call (i.e. it is `assistantSuccessMsg r t` for some result and time); user
messages and failure-path assistant messages never carry one. -/
theorem result_present_iff_assistant_success :
    ∀ tr : List (Event × Nat),
      validFrom 0 initState tr = true →
      ∀ m ∈ (runTrace initState tr).messages,
        m.result.isSome = true ↔
          (m.role = Role.assistant ∧ ∃ r t, m = assistantSuccessMsg r t) := by
  intro tr _
  refine run_result_iff tr initState ?_
  intro m hm
  simp [initState] at hm

/-- Witness for C9: a trace with one successful and one failed submit. -/
theorem result_present_iff_assistant_success_witness :
    validFrom 0 initState
      [(Event.setInput "hi", 0), (Event.sendStart, 1),
       (Event.sendComplete (Except.ok ⟨"p", "l", "t", none, false⟩), 2),
       (Event.setInput "yo", 3), (Event.sendStart, 4),
       (Event.sendComplete (Except.error "boom"), 5)] = true ∧
    (∀ m ∈ (runTrace initState
      [(Event.setInput "hi", 0), (Event.sendStart, 1),
       (Event.sendComplete (Except.ok ⟨"p", "l", "t", none, false⟩), 2),
       (Event.setInput "yo", 3), (Event.sendStart, 4),
       (Event.sendComplete (Except.error "boom"), 5)]).messages,
        m.result.isSome = true ↔
          (m.role = Role.assistant ∧ ∃ r t, m = assistantSuccessMsg r t)) :=
  ⟨by decide,
    result_present_iff_assistant_success
      [(Event.setInput "hi", 0), (Event.sendStart, 1),
       (Event.sendComplete (Except.ok ⟨"p", "l", "t", none, false⟩), 2),
       (Event.setInput "yo", 3), (Event.sendStart, 4),
       (Event.sendComplete (Except.error "boom"), 5)] (by decide)⟩

end PromptArchitect
